import Mathlib

/-!
Shallow embedding of the Rubik's-cube move-application / orientation-resolution
engine of this repository.  The canonical engine is the HTM tracker
`CubeBase` / `CubeTracker` in `src/src/cube_simulator_full.py`; the classifier
variants of `src/cube_model.py` and `src/Simulators/cube_simulator_full.py`
are embedded separately where claims cite them.

Grids are numpy arrays indexed `[i][j][k]` with each index in `{0,1,2}`;
we model them as functions from `Pos = Fin 3 × Fin 3 × Fin 3`.
-/

/-- A slot of the 3×3×3 grid: front-to-back layer, top-to-bottom row,
left-to-right column (numpy axes 0,1,2 of the repository's arrays). -/
abbrev Pos := Fin 3 × Fin 3 × Fin 3

/-- `2 - x` on `Fin 3` (the index reflection used by `np.rot90`/`np.flip`). -/
def fl (x : Fin 3) : Fin 3 := 2 - x

/-- All 27 slots in C (lexicographic) order, matching the
`for i / for j / for k` loops and `np.argwhere` scan order of the source. -/
def allPos : List Pos :=
  (List.finRange 3).foldr (fun a acc =>
    ((List.finRange 3).foldr (fun b acc2 =>
      ((List.finRange 3).map (fun c => (a, b, c))) ++ acc2) []) ++ acc) []

/-- Source-index map of `np.rot90(cube, k=d, axes=(0, perspective))` for the
two directions ±1 the source uses (`change_perspective` in `__rotate_face`):
the output at slot `q` is the input at `cpIdx perspective d q`. -/
def cpIdx (perspective : Nat) (d : Int) (q : Pos) : Pos :=
  if perspective = 0 then q
  else if perspective = 1 then
    if d = -1 then (fl q.2.1, q.1, q.2.2) else (q.2.1, fl q.1, q.2.2)
  else
    if d = -1 then (fl q.2.2, q.2.1, q.1) else (q.2.2, q.2.1, fl q.1)

/-- Source-index map of the 2-D `np.rot90(layer, k=dir, axes=(0,1))` on a
3×3 layer, with `kk = dir % 4` (numpy normalizes `k` modulo 4). -/
def rotLayerSrc (kk : Nat) (bc : Fin 3 × Fin 3) : Fin 3 × Fin 3 :=
  if kk = 1 then (bc.2, fl bc.1)
  else if kk = 2 then (fl bc.1, fl bc.2)
  else if kk = 3 then (fl bc.2, bc.1)
  else bc

/-- The 19 move tokens of the HTM `move_map` in
`src/src/cube_simulator_full.py` (`FP` is the token `F'`, etc.). -/
inductive Move where
  | F | F2 | FP | B | B2 | BP
  | U | U2 | UP | D | D2 | DP
  | L | L2 | LP | R | R2 | RP
  | N
deriving DecidableEq, Repr

/-- The `(perspective, face_idx, direction)` arguments each move passes to
`__rotate_face` (the `__F`, `__F2`, ... one-liners); `N` does nothing. -/
def moveSpec : Move → Nat × Fin 3 × Int
  | .F  => (0, 0, -1) | .F2 => (0, 0, -2) | .FP => (0, 0,  1)
  | .B  => (0, 2,  1) | .B2 => (0, 2,  2) | .BP => (0, 2, -1)
  | .U  => (1, 0, -1) | .U2 => (1, 0, -2) | .UP => (1, 0,  1)
  | .D  => (1, 2,  1) | .D2 => (1, 2,  2) | .DP => (1, 2, -1)
  | .L  => (2, 0, -1) | .L2 => (2, 0, -2) | .LP => (2, 0,  1)
  | .R  => (2, 2,  1) | .R2 => (2, 2,  2) | .RP => (2, 2, -1)
  | .N  => (0, 0, 0)

/-- Source-index map of one `__rotate_face` call: the grid after the move
reads, at slot `q`, the old grid at `tau m q` (change perspective, rotate
the targeted layer, change perspective back). `N` is the no-op move. -/
def tau (m : Move) (q : Pos) : Pos :=
  match m with
  | .N => q
  | _ =>
    let (p, f, d) := moveSpec m
    let q1 := cpIdx p 1 q
    let q2 := if q1.1 = f then (q1.1, rotLayerSrc ((d % 4).toNat) q1.2) else q1
    cpIdx p (-1) q2

/-- The per-move slot permutation in the direction of the repository's
movement table (`movement[move][slot] = destination`): the piece at `p`
ends up at `mov m p`.  This is the inverse of `tau m`, recovered by scanning
the 27 slots. -/
def mov (m : Move) (p : Pos) : Pos :=
  ((allPos.find? (fun q => tau m q = p)).getD p)

/-- `piece_initial_ids_at_positions` of `src/src/cube_simulator_full.py`. -/
def idsGrid : List (List (List Nat)) :=
  [[[0, 1, 2], [3, 4, 5], [6, 7, 8]],
   [[9, 10, 11], [12, 13, 14], [15, 16, 17]],
   [[18, 19, 20], [21, 22, 23], [24, 25, 26]]]

/-- `piece_initial_orientations_for_solver` (single characters). -/
def solvGrid : List (List (List Char)) :=
  [[['0', 'g', '0'], ['g', 'y', 'g'], ['0', 'g', '0']],
   [['g', 'Z', 'g'], ['x', 'C', 'X'], ['g', 'z', 'g']],
   [['0', 'g', '0'], ['g', 'Y', 'g'], ['0', 'g', '0']]]

/-- `piece_initial_orientations_for_visualizer` (axis-letter strings). -/
def visGrid : List (List (List String)) :=
  [[["xyZ", "yZ", "XyZ"], ["xy", "y", "Xy"], ["xyz", "yz", "Xyz"]],
   [["xZ", "Z", "XZ"], ["x", "C", "X"], ["xz", "z", "Xz"]],
   [["xYZ", "YZ", "XYZ"], ["xY", "Y", "XY"], ["xYz", "Yz", "XYz"]]]

/-- Value of a 3×3×3 nested-list grid at a slot. -/
def gridAt {α : Type} (g : List (List (List α))) (dflt : α) (q : Pos) : α :=
  ((g.getD q.1.val []).getD q.2.1.val []).getD q.2.2.val dflt

/-- `piece_initial_ids_at_positions[q]`. -/
def initIds (q : Pos) : Nat := gridAt idsGrid 0 q

/-- `piece_initial_orientations_for_solver[q]`. -/
def initSolv (q : Pos) : Char := gridAt solvGrid ' ' q

/-- `piece_initial_orientations_for_visualizer[q]`, as a character list
(the Python code works with `list(...)` of the strings). -/
def initVisAt (q : Pos) : List Char := (gridAt visGrid "" q).toList

/-- `CENTER_PIECE_IDS` of `src/src/cube_simulator_full.py`. -/
def centerPieceIds : List Nat := [4, 10, 12, 13, 14, 16, 22]

/-- The edge slots, computed as `categorize_positions_over_piece_types`
does: scan slots in C order, skip center ids, edge iff the solver
orientation marker is `'g'`. -/
def edgePositionsList : List Pos :=
  allPos.filter (fun q =>
    ¬ initIds q ∈ centerPieceIds ∧ initSolv q = 'g')

/-- The corner slots from the same scan (non-center, marker not `'g'`). -/
def cornerPositionsList : List Pos :=
  allPos.filter (fun q =>
    ¬ initIds q ∈ centerPieceIds ∧ ¬ initSolv q = 'g')

/-- `categorize_ids_over_piece_types` of `src/src`: edge piece ids. -/
def edgeIdsList : List Nat := edgePositionsList.map initIds

/-- `categorize_ids_over_piece_types` of `src/src`: corner piece ids. -/
def cornerIdsList : List Nat := cornerPositionsList.map initIds

/-- `tuple(np.argwhere(piece_initial_ids_at_positions == piece_id)[0])`:
the solved home slot of a piece id (first hit in C scan order). -/
def initialPosOf (pid : Nat) : Pos :=
  (allPos.find? (fun q => initIds q = pid)).getD (0, 0, 0)

/-! ### The spec-modelled lookup tables

The three JSON lookup tables and their generator script are not part of
`src/`; only the loader and consumers are.  Following §4.2 of the spec we
model the edge-distance table here; the movement table is `mov` above
(§4.2: "where a piece currently at `slot` ends up after applying
`move_token`", which is exactly the Move Engine's slot permutation). -/

/-- The 18 face-turn moves (all tokens except the no-op `N`). -/
def faceMoves : List Move :=
  [.F, .F2, .FP, .B, .B2, .BP, .U, .U2, .UP, .D, .D2, .DP,
   .L, .L2, .LP, .R, .R2, .RP]

/-- All 19 move tokens. -/
def allMoves : List Move := faceMoves ++ [.N]

/-- Slots reachable from `p` in one move (HTM: a half turn is one move). -/
def moveNeighbors (p : Pos) : List Pos := faceMoves.map (fun m => mov m p)

/-- Slots reachable from `h` in at most `n` moves. -/
def ball (h : Pos) : Nat → List Pos
  | 0 => [h]
  | n + 1 =>
    let b := ball h n
    (b ++ b.flatMap moveNeighbors).dedup

/-- Modelled from the spec: `edge_distance[(solved_slot, slot)]` — the
minimal move-count for the edge piece whose solved home is `h` to reach
`s`, ignoring orientation (§4.2).  The JSON table
`edge_primary_distance_table.json` and its generator are not in `src/`,
so the table is reconstructed as graph distance under the 18 HTM moves. -/
def edgeDistance (h s : Pos) : Nat :=
  ((List.range 5).find? (fun n => s ∈ ball h n)).getD 100

/-! ### Cube state and the orientation resolver -/

/-- The mutable state of a `CubeTracker`:
`piece_current_ids_at_positions`, `piece_current_orientations_for_solver`
and `piece_current_orientations_for_visualizer`. -/
@[ext] structure CubeState where
  ids : Pos → Nat
  solv : Pos → Char
  vis : Pos → List Char

/-- The solved configuration built by `CubeTracker.__init__`. -/
def initialState : CubeState :=
  { ids := initIds, solv := initSolv, vis := initVisAt }

/-- Point update of a grid (one numpy element assignment). -/
def setAt {α : Type} (g : Pos → α) (p : Pos) (v : α) : Pos → α :=
  fun q => if q = p then v else g q

/-- The edge-flag flip `'g' if current == 'b' else 'b'`. -/
def flipGB (c : Char) : Char := if c = 'b' then 'g' else 'b'

/-- `__update_orientations_for_solver`, with the two lookup tables taken
as parameters (`ed` for `self.edge_distances`, `mvt` for
`self.movements`): for each edge slot displaced by the move, flip its
flag iff the occupying piece's distance-to-home is unchanged by the move.
The loop is kept sequential (a `foldl`) as in the source. -/
def updateSolverTbl (ed : Pos → Pos → Nat) (mvt : Move → Pos → Pos)
    (m : Move) (st : CubeState) : CubeState :=
  CubeState.mk st.ids
    ((edgePositionsList.filter (fun e => ¬ mvt m e = e)).foldl (fun g e =>
        if ed (initialPosOf (st.ids e)) e = ed (initialPosOf (st.ids e)) (mvt m e)
        then setAt g e (flipGB (g e)) else g) st.solv)
    st.vis

/-- `__update_orientations_for_solver` with the modelled tables. -/
def updateSolver (m : Move) (st : CubeState) : CubeState :=
  updateSolverTbl edgeDistance mov m st

/-- `move_vs_direction_map` of `src/src`: the cube-frame direction letter
that is the rotation axis of the move's face (case encodes the sign).
The source dict has no entry for `N`; `N` displaces no slot, so the value
returned here is never consulted. -/
def edgeDirChar : Move → Char
  | .R => 'X' | .R2 => 'X' | .RP => 'X'
  | .L => 'x' | .L2 => 'x' | .LP => 'x'
  | .B => 'Y' | .B2 => 'Y' | .BP => 'Y'
  | .F => 'y' | .F2 => 'y' | .FP => 'y'
  | .U => 'Z' | .U2 => 'Z' | .UP => 'Z'
  | .D => 'z' | .D2 => 'z' | .DP => 'z'
  | .N => 'y'

/-- The token string of each move (the `move_map` key). -/
def moveToken : Move → String
  | .F => "F" | .F2 => "F2" | .FP => "F'"
  | .B => "B" | .B2 => "B2" | .BP => "B'"
  | .U => "U" | .U2 => "U2" | .UP => "U'"
  | .D => "D" | .D2 => "D2" | .DP => "D'"
  | .L => "L" | .L2 => "L2" | .LP => "L'"
  | .R => "R" | .R2 => "R2" | .RP => "R'"
  | .N => "N"

/-- The source's quarter-turn test `len(move)==1 or move[1] == "'"`. -/
def isQuarterTok (m : Move) : Bool :=
  (moveToken m).length = 1 ∨ (moveToken m).toList.getD 1 ' ' = '\''

/-- `corner_move_vs_facelet_swap_map[move][1]`: the reference (rotation
axis) letter for the corner rule. -/
def cornerRefChar : Move → Char
  | .L => 'x' | .L2 => 'x' | .LP => 'x' | .R => 'x' | .R2 => 'x' | .RP => 'x'
  | .F => 'y' | .F2 => 'y' | .FP => 'y' | .B => 'y' | .B2 => 'y' | .BP => 'y'
  | .U => 'z' | .U2 => 'z' | .UP => 'z' | .D => 'z' | .D2 => 'z' | .DP => 'z'
  | .N => 'x'

/-- `facelet_id.lower() if facelet_id.isupper() else facelet_id.upper()`. -/
def swapCase (c : Char) : Char := if c.isUpper then c.toLower else c.toUpper

/-- The edge body of `__update_orientations_for_visualizer` for one
displaced edge slot: every character other than the move's direction
letter is overwritten by the last character of the destination slot's
solved label that is not the direction letter (the nested
`for facelet ... for destination_facelet_id ...` loops); a half turn
case-inverts those characters instead. -/
def edgeVisNew (m : Move) (L : List Char) (dest : Pos) : List Char :=
  let dir := edgeDirChar m
  if isQuarterTok m then
    let lastNonDir := ((initVisAt dest).filter (fun d => ¬ d = dir)).getLast?
    L.map (fun ch => if ¬ ch = dir then lastNonDir.getD ch else ch)
  else
    L.map (fun ch => if ¬ ch = dir then swapCase ch else ch)

/-- The corner body of `__update_orientations_for_visualizer` for one
displaced corner slot.  `ci` is `''.join(current).lower().index(ref)`
(the source raises if the reference letter is absent; here `findIdx`
returns the list length, which valid labels never hit. `getD` stands for
the source's direct list indexing, again total only on valid labels).
For a quarter turn each of the two other positions receives the last
destination-label character whose lowercase differs from the current
character's lowercase, after the characters equal to the current
reference character are removed; a half turn case-inverts the two other
positions. -/
def cornerVisNew (m : Move) (L : List Char) (dest : Pos) : List Char :=
  let ref := cornerRefChar m
  let ci := L.findIdx (fun c => c.toLower = ref)
  let swapIdxs := (List.range 3).filter (fun i => ¬ i = ci)
  let cVal := L.getD ci ' '
  let destSwap := (initVisAt dest).filter (fun j => ¬ j = cVal)
  if isQuarterTok m then
    (List.range L.length).map (fun i =>
      if i ∈ swapIdxs then
        ((destSwap.filter (fun j =>
            ¬ j.toLower = (L.getD i ' ').toLower)).getLast?).getD (L.getD i ' ')
      else L.getD i ' ')
  else
    (List.range L.length).map (fun i =>
      if i ∈ swapIdxs then swapCase (L.getD i ' ') else L.getD i ' ')

/-- `__update_orientations_for_visualizer`: the edge loop followed by the
corner loop, each over the slots displaced by the move. -/
def updateVisualizer (m : Move) (st : CubeState) : CubeState :=
  CubeState.mk st.ids st.solv
    ((cornerPositionsList.filter (fun c => ¬ mov m c = c)).foldl
      (fun g c => setAt g c (cornerVisNew m (g c) (mov m c)))
      ((edgePositionsList.filter (fun e => ¬ mov m e = e)).foldl
        (fun g e => setAt g e (edgeVisNew m (g e) (mov m e))) st.vis))

/-- One `__rotate_face` on all three grids: pure permutation of slots. -/
def applyPermState (m : Move) (st : CubeState) : CubeState :=
  { ids := fun q => st.ids (tau m q),
    solv := fun q => st.solv (tau m q),
    vis := fun q => st.vis (tau m q) }

/-- One iteration of the `for move in moves_split` loop of `apply_moves`:
solver orientations, then visualizer orientations, then the rotation. -/
def stepMove (m : Move) (st : CubeState) : CubeState :=
  applyPermState m (updateVisualizer m (updateSolver m st))

/-- Application of a whole move list from a given state. -/
def applyMoveList (ms : List Move) (st : CubeState) : CubeState :=
  ms.foldl (fun s m => stepMove m s) st

/-- The number of edge slots currently flagged `'b'` (Bad). -/
def bCount (st : CubeState) : Nat :=
  (edgePositionsList.filter (fun e => st.solv e = 'b')).length

/-! ### Tokenizer and `apply_moves` of `src/src/cube_simulator_full.py` -/

/-- The keys of the HTM `move_map` (dict-membership is all the source
uses them for). -/
def moveTokens : List String :=
  ["L", "L2", "L'", "R", "R2", "R'", "F", "F2", "F'", "B", "B2", "B'",
   "U", "U2", "U'", "D", "D2", "D'", "N"]

/-- `token in self.move_map.keys()`. -/
def isKey (t : String) : Bool := moveTokens.contains t

/-- How tokenization of `apply_moves` fails: `invalid i` is the
`ValueError(f"Invalid entry at index {idx}")`; `indexError` is the
uncaught `IndexError` from `move_sequence[idx]` when the input string is
empty (the only input on which the loop indexes out of range). -/
inductive TokErr where
  | invalid (idx : Nat)
  | indexError
deriving DecidableEq, Repr

/-- The `while True` tokenizer loop of `apply_moves`, on the remaining
characters with `i` the current absolute index: try the two-character
slice first, then the single character, else fail at `i`; after a match
the loop breaks when the index reaches the end of the string. -/
def tokLoop : List Char → Nat → Except TokErr (List String)
  | [], _ => .error .indexError
  | [c], i =>
    if isKey (String.mk [c]) then .ok [String.mk [c]] else .error (.invalid i)
  | c1 :: c2 :: rest, i =>
    if isKey (String.mk [c1, c2]) then
      match rest with
      | [] => .ok [String.mk [c1, c2]]
      | _ => (tokLoop rest (i + 2)).map (fun ts => String.mk [c1, c2] :: ts)
    else if isKey (String.mk [c1]) then
      (tokLoop (c2 :: rest) (i + 1)).map (fun ts => String.mk [c1] :: ts)
    else .error (.invalid i)

/-- Tokenization of a whole move string (`idx = 0`). -/
def tokenizeHTM (s : String) : Except TokErr (List String) :=
  tokLoop s.toList 0

/-- A `CubeTracker` together with its `move_history`. -/
structure Tracker where
  state : CubeState
  history : List String

/-- The tracker at construction time. -/
def initialTracker : Tracker := { state := initialState, history := [] }

/-- The argument of `apply_moves`: a string or a list. -/
inductive MoveInput where
  | str (s : String)
  | list (l : List String)

/-- How `apply_moves` of `src/src` fails: `notAString` is the
`ValueError("argument to apply_moves must be a continuous string of
valid moves")` raised for any non-string argument; `tokErr` wraps a
tokenization failure. -/
inductive ApplyErr where
  | notAString
  | tokErr (e : TokErr)
deriving DecidableEq, Repr

/-- `move_map` as an association of token to move. -/
def tokenMovePairs : List (String × Move) :=
  [("L", .L), ("L2", .L2), ("L'", .LP), ("R", .R), ("R2", .R2), ("R'", .RP),
   ("F", .F), ("F2", .F2), ("F'", .FP), ("B", .B), ("B2", .B2), ("B'", .BP),
   ("U", .U), ("U2", .U2), ("U'", .UP), ("D", .D), ("D2", .D2), ("D'", .DP),
   ("N", .N)]

/-- Look a token up in `move_map` (total; tokens produced by the
tokenizer are always keys). -/
def moveOfToken (t : String) : Move :=
  ((tokenMovePairs.find? (fun p => p.1 = t)).map (fun p => p.2)).getD .N

/-- One iteration of the application loop of `apply_moves`: append to
`move_history`, then run the resolver-and-rotate pair. -/
def applyToken (tr : Tracker) (t : String) : Tracker :=
  { state := stepMove (moveOfToken t) tr.state, history := tr.history ++ [t] }

/-- `apply_moves` of `src/src/cube_simulator_full.py`: reject non-string
input, tokenize the whole string, and only then apply the resolved
tokens in order.  The returned tracker is the state after the call; a
`some` error models the raised exception (on which the tracker is
returned unchanged, since the source tokenizes before applying). -/
def applyMovesHTM (tr : Tracker) (inp : MoveInput) : Tracker × Option ApplyErr :=
  match inp with
  | .list _ => (tr, some .notAString)
  | .str s =>
    match tokenizeHTM s with
    | .error e => (tr, some (.tokErr e))
    | .ok ts => (ts.foldl applyToken tr, none)

/-! ### The table loader `_load_tables_from_json` (claim C7)

The loader reads three JSON files; every exception while opening or
parsing a file is caught (`except Exception as e: print(...)`), so a
missing or unreadable file leaves the corresponding entry of the result
dictionary at `None` and the function always returns.  File contents are
modelled as already-deserialized payloads; `read` returns `none` when
opening or parsing the file raises. -/

/-- A deserialized table file: a distance table or a movement table. -/
inductive TableContent where
  | distTable (t : List ((Pos × Pos) × Nat))
  | moveTable (t : List (String × List (Pos × Pos)))

/-- The result dictionary of `_load_tables_from_json`: each entry is
`None` (`none`) unless a file for it was classified and loaded. -/
structure LoadedTables where
  edgeDistances : Option (List ((Pos × Pos) × Nat))
  cornerDistances : Option (List ((Pos × Pos) × Nat))
  movements : Option (List (String × List (Pos × Pos)))

/-- Case-insensitive substring test (`'edge' in filename.lower()`),
specialized to lowercase needles over the lowered filename. -/
def containsSub (hay needle : String) : Bool :=
  List.any (List.range ((hay.toList.map Char.toLower).length + 1)) (fun i =>
    ((hay.toList.map Char.toLower).drop i).take needle.toList.length
      = needle.toList)

/-- Payload extraction when a filename classifies as a distance table.
If the JSON held a different shape the source raises mid-conversion
after having assigned `{}`, leaving a partial dictionary; the empty
list models that. -/
def distPayload : TableContent → List ((Pos × Pos) × Nat)
  | .distTable t => t
  | .moveTable _ => []

/-- Payload extraction for a movement-table classification. -/
def movePayload : TableContent → List (String × List (Pos × Pos))
  | .moveTable t => t
  | .distTable _ => []

/-- `_load_tables_from_json`: fold over the filenames, classify each by
substrings of the lowered name, and fill in the corresponding entry when
the file could be read; a failed read (`none`) is swallowed and the
entry stays as it was.  The function is total: it cannot raise. -/
def loadTablesFromJson (read : String → Option TableContent)
    (filenames : List String) : LoadedTables :=
  filenames.foldl (fun tables fn =>
    match read fn with
    | none => tables
    | some content =>
      if containsSub fn "edge" ∧ containsSub fn "distance" then
        { tables with edgeDistances := some (distPayload content) }
      else if containsSub fn "corner" ∧ containsSub fn "distance" then
        { tables with cornerDistances := some (distPayload content) }
      else if containsSub fn "movement" then
        { tables with movements := some (movePayload content) }
      else tables)
    { edgeDistances := none, cornerDistances := none, movements := none }

/-- The filename list passed by `CubeBase.initialize` in `src/src`. -/
def htmTableFilenames : List String :=
  ["..\\Precomputed_Lookup_Tables\\corner_primary_distance_table.json",
   "..\\Precomputed_Lookup_Tables\\edge_primary_distance_table.json",
   "..\\Precomputed_Lookup_Tables\\movement_table.json"]

/-! ### The classifier of `src/cube_model.py` (claim C8)

That file uses 1-based piece ids and a single orientation array whose
corners are all marked `'xyz'` and whose face centers are marked
`'F','U','L','C','R','D','B'`.  Its `categorize_ids_over_piece_types`
does NOT skip the center ids; its `categorize_positions_over_piece_types`
skips ids `[5, 11, 13, 14, 15, 17, 23]`. -/

/-- `piece_initial_positions` of `src/cube_model.py`. -/
def cmIdsGrid : List (List (List Nat)) :=
  [[[1, 2, 3], [4, 5, 6], [7, 8, 9]],
   [[10, 11, 12], [13, 14, 15], [16, 17, 18]],
   [[19, 20, 21], [22, 23, 24], [25, 26, 27]]]

/-- `piece_initial_orientations` of `src/cube_model.py`. -/
def cmOrientGrid : List (List (List String)) :=
  [[["xyz", "g", "xyz"], ["g", "F", "g"], ["xyz", "g", "xyz"]],
   [["g", "U", "g"], ["L", "C", "R"], ["g", "D", "g"]],
   [["xyz", "g", "xyz"], ["g", "B", "g"], ["xyz", "g", "xyz"]]]

def cmIds (q : Pos) : Nat := gridAt cmIdsGrid 0 q

def cmOrient (q : Pos) : String := gridAt cmOrientGrid "" q

/-- `categorize_ids_over_piece_types` of `src/cube_model.py`: edge ids
are those with marker `'g'`; everything else — including the 7 center
ids, which are not skipped — lands in `corner_ids`. -/
def cmEdgeIds : List Nat :=
  (allPos.filter (fun q => cmOrient q = "g")).map cmIds

def cmCornerIds : List Nat :=
  (allPos.filter (fun q => ¬ cmOrient q = "g")).map cmIds

/-- `categorize_positions_over_piece_types` of `src/cube_model.py`
(this one does skip the center ids). -/
def cmCenterIds : List Nat := [5, 11, 13, 14, 15, 17, 23]

def cmEdgePositions : List Pos :=
  allPos.filter (fun q => ¬ cmIds q ∈ cmCenterIds ∧ cmOrient q = "g")

def cmCornerPositions : List Pos :=
  allPos.filter (fun q => ¬ cmIds q ∈ cmCenterIds ∧ ¬ cmOrient q = "g")

/-! ### The classifier of `src/Simulators/cube_simulator_full.py`

Same 0-based ids and center set as `src/src`, but a single orientation
array in which corner slots carry their full 3-character axis labels. -/

/-- `piece_initial_orientations` of `src/Simulators/cube_simulator_full.py`. -/
def simOrientGrid : List (List (List String)) :=
  [[["xyZ", "g", "XyZ"], ["g", "y", "g"], ["xyz", "g", "Xyz"]],
   [["g", "Z", "g"], ["x", "C", "X"], ["g", "z", "g"]],
   [["xYZ", "g", "XYZ"], ["g", "Y", "g"], ["xYz", "g", "XYz"]]]

def simOrient (q : Pos) : String := gridAt simOrientGrid "" q

def simEdgeIds : List Nat :=
  (allPos.filter (fun q =>
    ¬ initIds q ∈ centerPieceIds ∧ simOrient q = "g")).map initIds

def simCornerIds : List Nat :=
  (allPos.filter (fun q =>
    ¬ initIds q ∈ centerPieceIds ∧ ¬ simOrient q = "g")).map initIds

def simEdgePositions : List Pos :=
  allPos.filter (fun q => ¬ initIds q ∈ centerPieceIds ∧ simOrient q = "g")

def simCornerPositions : List Pos :=
  allPos.filter (fun q => ¬ initIds q ∈ centerPieceIds ∧ ¬ simOrient q = "g")

/-! ### Valid orientation labels and the state invariant -/

/-- The designated inverse of each move token (`F` ↔ `F'`, half turns
and `N` are self-inverse). -/
def invMove : Move → Move
  | .F => .FP | .FP => .F | .F2 => .F2
  | .B => .BP | .BP => .B | .B2 => .B2
  | .U => .UP | .UP => .U | .U2 => .U2
  | .D => .DP | .DP => .D | .D2 => .D2
  | .L => .LP | .LP => .L | .L2 => .L2
  | .R => .RP | .RP => .R | .R2 => .R2
  | .N => .N

/-- The two arrangements of an edge slot's solved label characters: the
labels an edge slot can carry in any reachable state. -/
def validEdge (s : Pos) : List (List Char) :=
  [initVisAt s, (initVisAt s).reverse]

/-- All six arrangements of a three-character label. -/
def perms3 (l : List Char) : List (List Char) :=
  match l with
  | [u, v, w] => [[u,v,w], [u,w,v], [v,u,w], [v,w,u], [w,u,v], [w,v,u]]
  | _ => [l]

/-- The six arrangements of a corner slot's solved label characters. -/
def validCorner (s : Pos) : List (List Char) := perms3 (initVisAt s)

/-- The reachable-state invariant: every edge slot carries a `'g'`/`'b'`
solver flag and an arrangement of its solved visualizer characters, and
every corner slot carries an arrangement of its solved label. -/
def StateInv (st : CubeState) : Prop :=
  (∀ s ∈ edgePositionsList,
    (st.solv s = 'g' ∨ st.solv s = 'b') ∧ st.vis s ∈ validEdge s) ∧
  (∀ s ∈ cornerPositionsList, st.vis s ∈ validCorner s)

/-- `ts` is the greedy tokenization of a prefix of `cs`: each token is
exactly the one the two-characters-first matching rule picks at its
position. -/
def isGreedyTokenization : List String → List Char → Bool
  | [], _ => true
  | t :: ts, cs =>
    (match cs with
     | c1 :: c2 :: _ =>
       if isKey (String.mk [c1, c2]) then t == String.mk [c1, c2]
       else isKey (String.mk [c1]) && (t == String.mk [c1])
     | [c1] => isKey (String.mk [c1]) && (t == String.mk [c1])
     | [] => false) && isGreedyTokenization ts (cs.drop t.toList.length)

/-- The index of the reference (rotation-axis) character inside a corner
label: `''.join(current_orientation).lower().index(reference_id)`. -/
def ciOf (m : Move) (L : List Char) : Nat :=
  L.findIdx (fun c => c.toLower = cornerRefChar m)

/-! ### Pointwise characterization of the sequential update loops -/

/-- Pointwise value of a guarded per-slot update loop over a
duplicate-free slot list: each listed slot is visited once and the body
reads the accumulated grid only at the visited slot, so the final grid
at `q` depends only on whether `q` is a listed slot passing the guard. -/
theorem foldl_setAt_cond {α : Type} (cond : Pos → Prop) [DecidablePred cond]
    (f : Pos → α → α) :
    ∀ (L : List Pos), L.Nodup → ∀ (g : Pos → α) (q : Pos),
      (L.foldl (fun acc e => if cond e then setAt acc e (f e (acc e)) else acc) g) q
        = if q ∈ L ∧ cond q then f q (g q) else g q := by
  intro L
  induction L with
  | nil => intro _ g q; simp
  | cons e T ih =>
    intro hnd g q
    have hT := (List.nodup_cons.mp hnd).2
    have heT := (List.nodup_cons.mp hnd).1
    simp only [List.foldl_cons]
    rw [ih hT]
    by_cases hq : q = e
    · subst hq
      by_cases hc : cond q
      · simp [hc, heT, setAt]
      · simp [hc, heT]
    · have hg1 : (if cond e then setAt g e (f e (g e)) else g) q = g q := by
        by_cases hc : cond e <;> simp [hc, setAt, hq]
      by_cases hqT : q ∈ T
      · by_cases hc : cond q <;> simp [hqT, hc, hg1, hq]
      · simp [hqT, hq, hg1]

/-- Unguarded version of `foldl_setAt_cond`. -/
theorem foldl_setAt_all {α : Type} (f : Pos → α → α) :
    ∀ (L : List Pos), L.Nodup → ∀ (g : Pos → α) (q : Pos),
      (L.foldl (fun acc e => setAt acc e (f e (acc e))) g) q
        = if q ∈ L then f q (g q) else g q := by
  intro L
  induction L with
  | nil => intro _ g q; simp
  | cons e T ih =>
    intro hnd g q
    have hT := (List.nodup_cons.mp hnd).2
    have heT := (List.nodup_cons.mp hnd).1
    simp only [List.foldl_cons]
    rw [ih hT]
    by_cases hq : q = e
    · subst hq
      simp [heT, setAt]
    · have hg1 : setAt g e (f e (g e)) q = g q := by simp [setAt, hq]
      by_cases hqT : q ∈ T <;> simp [hqT, hq, hg1]

theorem edgePositions_nodup : edgePositionsList.Nodup := by decide

theorem cornerPositions_nodup : cornerPositionsList.Nodup := by decide

theorem edge_not_corner : ∀ q ∈ edgePositionsList, ¬ q ∈ cornerPositionsList := by
  decide

/-- Value of the edge orientation resolver at one slot: the flag at an
edge slot displaced by the move with unchanged distance-to-home is
flipped; every other slot keeps its value.  The occupant (`st.ids`) and
the slot are the pre-move ones: the resolver runs before the rotation. -/
theorem updateSolverTbl_solv (ed : Pos → Pos → Nat) (mvt : Move → Pos → Pos)
    (m : Move) (st : CubeState) (q : Pos) :
    (updateSolverTbl ed mvt m st).solv q =
      if q ∈ edgePositionsList ∧ ¬ mvt m q = q ∧
          ed (initialPosOf (st.ids q)) q = ed (initialPosOf (st.ids q)) (mvt m q)
      then flipGB (st.solv q) else st.solv q := by
  show ((edgePositionsList.filter (fun e => ¬ mvt m e = e)).foldl (fun g e =>
        if ed (initialPosOf (st.ids e)) e = ed (initialPosOf (st.ids e)) (mvt m e)
        then setAt g e (flipGB (g e)) else g) st.solv) q = _
  rw [foldl_setAt_cond
    (fun e => ed (initialPosOf (st.ids e)) e = ed (initialPosOf (st.ids e)) (mvt m e))
    (fun _ v => flipGB v) _ (edgePositions_nodup.filter _)]
  simp [List.mem_filter, and_assoc]

theorem updateSolverTbl_ids (ed : Pos → Pos → Nat) (mvt : Move → Pos → Pos)
    (m : Move) (st : CubeState) : (updateSolverTbl ed mvt m st).ids = st.ids := rfl

theorem updateSolverTbl_vis (ed : Pos → Pos → Nat) (mvt : Move → Pos → Pos)
    (m : Move) (st : CubeState) : (updateSolverTbl ed mvt m st).vis = st.vis := rfl

/-- Value of the visualizer orientation resolver at one slot. -/
theorem updateVisualizer_vis (m : Move) (st : CubeState) (q : Pos) :
    (updateVisualizer m st).vis q =
      if q ∈ edgePositionsList ∧ ¬ mov m q = q then
        edgeVisNew m (st.vis q) (mov m q)
      else if q ∈ cornerPositionsList ∧ ¬ mov m q = q then
        cornerVisNew m (st.vis q) (mov m q)
      else st.vis q := by
  show ((cornerPositionsList.filter (fun c => ¬ mov m c = c)).foldl
        (fun g c => setAt g c (cornerVisNew m (g c) (mov m c)))
        ((edgePositionsList.filter (fun e => ¬ mov m e = e)).foldl
          (fun g e => setAt g e (edgeVisNew m (g e) (mov m e))) st.vis)) q = _
  rw [foldl_setAt_all (fun c v => cornerVisNew m v (mov m c)) _
      (cornerPositions_nodup.filter _)]
  rw [foldl_setAt_all (fun e v => edgeVisNew m v (mov m e)) _
      (edgePositions_nodup.filter _)]
  by_cases hqc : q ∈ cornerPositionsList ∧ ¬ mov m q = q
  · have hqe : ¬ q ∈ edgePositionsList := by
      intro hq
      exact edge_not_corner q hq hqc.1
    simp [List.mem_filter, hqc.1, hqc.2, hqe]
  · by_cases hqe : q ∈ edgePositionsList ∧ ¬ mov m q = q
    · have hqc2 : ¬ q ∈ cornerPositionsList := edge_not_corner q hqe.1
      simp [List.mem_filter, hqe.1, hqe.2, hqc, hqc2]
    · simp only [List.mem_filter, decide_not]
      rw [if_neg, if_neg, if_neg hqc, if_neg hqe]
      · intro h
        exact hqe ⟨h.1, by simpa using h.2⟩
      · intro h
        exact hqc ⟨h.1, by simpa using h.2⟩

theorem updateVisualizer_ids (m : Move) (st : CubeState) :
    (updateVisualizer m st).ids = st.ids := rfl

theorem updateVisualizer_solv (m : Move) (st : CubeState) :
    (updateVisualizer m st).solv = st.solv := rfl

theorem stepMove_ids (m : Move) (st : CubeState) (q : Pos) :
    (stepMove m st).ids q = st.ids (tau m q) := rfl

theorem stepMove_solv (m : Move) (st : CubeState) (q : Pos) :
    (stepMove m st).solv q = (updateSolver m st).solv (tau m q) := rfl

theorem stepMove_vis (m : Move) (st : CubeState) (q : Pos) :
    (stepMove m st).vis q
      = (updateVisualizer m (updateSolver m st)).vis (tau m q) := rfl

/-! ### Finite facts about the move permutations and label updates -/

theorem mem_allMoves : ∀ m : Move, m ∈ allMoves := by
  intro m
  cases m <;> decide

theorem tau_tau_inv : ∀ m ∈ allMoves, ∀ q : Pos, tau m (tau (invMove m) q) = q := by
  decide

theorem mov_tau : ∀ m ∈ allMoves, ∀ q : Pos, mov m (tau m q) = q := by decide

theorem tau_mov : ∀ m ∈ allMoves, ∀ q : Pos, tau m (mov m q) = q := by decide

theorem mov_inv_eq_tau : ∀ m ∈ allMoves, ∀ q : Pos, mov (invMove m) q = tau m q := by
  decide

theorem edge_mem_tau :
    ∀ m ∈ allMoves, ∀ q : Pos,
      (q ∈ edgePositionsList ↔ tau m q ∈ edgePositionsList) := by
  decide

theorem corner_mem_tau :
    ∀ m ∈ allMoves, ∀ q : Pos,
      (q ∈ cornerPositionsList ↔ tau m q ∈ cornerPositionsList) := by
  decide

/-- Displaced-edge label update: preserves label validity across the
move and is undone by the designated inverse move. -/
theorem edgeVis_cases :
    ∀ m ∈ allMoves, ∀ s ∈ edgePositionsList, ¬ mov m s = s →
      ∀ L ∈ validEdge s,
        edgeVisNew m L (mov m s) ∈ validEdge (mov m s) ∧
        edgeVisNew (invMove m) (edgeVisNew m L (mov m s)) s = L := by
  decide

/-- Displaced-corner label update: preserves label validity across the
move and is undone by the designated inverse move. -/
theorem cornerVis_cases :
    ∀ m ∈ allMoves, ∀ s ∈ cornerPositionsList, ¬ mov m s = s →
      ∀ L ∈ validCorner s,
        cornerVisNew m L (mov m s) ∈ validCorner (mov m s) ∧
        cornerVisNew (invMove m) (cornerVisNew m L (mov m s)) s = L := by
  decide

theorem flipGB_mem (c : Char) : flipGB c = 'g' ∨ flipGB c = 'b' := by
  unfold flipGB
  by_cases h : c = 'b' <;> simp [h]

theorem flipGB_flipGB {c : Char} (h : c = 'g' ∨ c = 'b') :
    flipGB (flipGB c) = c := by
  rcases h with h | h <;> subst h <;> decide

theorem stateInv_initial : StateInv initialState := by
  unfold StateInv
  decide

theorem invMove_invMove (m : Move) : invMove (invMove m) = m := by
  cases m <;> rfl

/-- One move step preserves the reachable-state invariant. -/
theorem stateInv_step (m : Move) (st : CubeState) (h : StateInv st) :
    StateInv (stepMove m st) := by
  obtain ⟨hE, hC⟩ := h
  have hm := mem_allMoves m
  constructor
  · intro s hs
    have hu : tau m s ∈ edgePositionsList := (edge_mem_tau m hm s).mp hs
    have hmt : mov m (tau m s) = s := mov_tau m hm s
    constructor
    · rw [stepMove_solv]
      unfold updateSolver
      rw [updateSolverTbl_solv]
      split
      · exact flipGB_mem _
      · exact (hE _ hu).1
    · rw [stepMove_vis, updateVisualizer_vis]
      have hv : (updateSolver m st).vis = st.vis := rfl
      rw [hv]
      by_cases hd : mov m (tau m s) = tau m s
      · have hse : s = tau m s := hmt.symm.trans hd
        rw [if_neg (fun hx => hx.2 hd), if_neg (fun hx => hx.2 hd), ← hse]
        exact (hE s hs).2
      · rw [if_pos ⟨hu, hd⟩, hmt]
        have hmem := (edgeVis_cases m hm (tau m s) hu hd (st.vis (tau m s)) ((hE _ hu).2)).1
        rw [hmt] at hmem
        exact hmem
  · intro s hs
    have hu : tau m s ∈ cornerPositionsList := (corner_mem_tau m hm s).mp hs
    have hue : ¬ tau m s ∈ edgePositionsList := fun hx => edge_not_corner _ hx hu
    have hmt : mov m (tau m s) = s := mov_tau m hm s
    rw [stepMove_vis, updateVisualizer_vis]
    have hv : (updateSolver m st).vis = st.vis := rfl
    rw [hv]
    by_cases hd : mov m (tau m s) = tau m s
    · have hse : s = tau m s := hmt.symm.trans hd
      rw [if_neg (fun hx => hx.2 hd), if_neg (fun hx => hx.2 hd), ← hse]
      exact hC s hs
    · rw [if_neg (fun hx => hue hx.1), if_pos ⟨hu, hd⟩, hmt]
      have hmem := (cornerVis_cases m hm (tau m s) hu hd (st.vis (tau m s)) (hC _ hu)).1
      rw [hmt] at hmem
      exact hmem

/-- A move followed by its designated inverse restores any state that
satisfies the reachable-state invariant. -/
theorem step_roundtrip (m : Move) (st : CubeState) (h : StateInv st) :
    stepMove (invMove m) (stepMove m st) = st := by
  obtain ⟨hE, hC⟩ := h
  have hm := mem_allMoves m
  have hm' := mem_allMoves (invMove m)
  apply CubeState.ext
  · funext q
    rw [stepMove_ids, stepMove_ids, tau_tau_inv m hm q]
  · funext q
    have hf1 : mov (invMove m) (tau (invMove m) q) = q := mov_tau (invMove m) hm' q
    have hf2 : tau m (tau (invMove m) q) = q := tau_tau_inv m hm q
    have hf5 : mov m q = tau (invMove m) q := by
      rw [← mov_inv_eq_tau (invMove m) hm' q, invMove_invMove]
    rw [stepMove_solv]
    unfold updateSolver
    rw [updateSolverTbl_solv, hf1]
    rw [show (stepMove m st).ids (tau (invMove m) q) = st.ids q from by
      rw [stepMove_ids, hf2]]
    rw [show (stepMove m st).solv (tau (invMove m) q)
        = (updateSolverTbl edgeDistance mov m st).solv q from by
      rw [stepMove_solv, hf2]; rfl]
    rw [updateSolverTbl_solv, hf5]
    have hpe : q ∈ edgePositionsList ↔ tau (invMove m) q ∈ edgePositionsList :=
      edge_mem_tau (invMove m) hm' q
    by_cases h1 : q ∈ edgePositionsList
    · by_cases h2 : tau (invMove m) q = q
      · rw [if_neg (fun hx => hx.2.1 h2.symm), if_neg (fun hx => hx.2.1 h2)]
      · by_cases h3 : edgeDistance (initialPosOf (st.ids q)) q
            = edgeDistance (initialPosOf (st.ids q)) (tau (invMove m) q)
        · rw [if_pos ⟨hpe.mp h1, fun hx => h2 hx.symm, h3.symm⟩,
            if_pos ⟨h1, h2, h3⟩]
          exact flipGB_flipGB (hE q h1).1
        · rw [if_neg (fun hx => h3 hx.2.2.symm), if_neg (fun hx => h3 hx.2.2)]
    · rw [if_neg (fun hx => h1 (hpe.mpr hx.1)), if_neg (fun hx => h1 hx.1)]
  · funext q
    have hf1 : mov (invMove m) (tau (invMove m) q) = q := mov_tau (invMove m) hm' q
    have hf2 : tau m (tau (invMove m) q) = q := tau_tau_inv m hm q
    have hf5 : mov m q = tau (invMove m) q := by
      rw [← mov_inv_eq_tau (invMove m) hm' q, invMove_invMove]
    rw [stepMove_vis, updateVisualizer_vis]
    rw [show (updateSolver (invMove m) (stepMove m st)).vis = (stepMove m st).vis from rfl]
    rw [hf1]
    rw [show (stepMove m st).vis (tau (invMove m) q)
        = (updateVisualizer m (updateSolver m st)).vis q from by
      rw [stepMove_vis, hf2]]
    rw [updateVisualizer_vis]
    rw [show (updateSolver m st).vis = st.vis from rfl, hf5]
    have hpe : q ∈ edgePositionsList ↔ tau (invMove m) q ∈ edgePositionsList :=
      edge_mem_tau (invMove m) hm' q
    have hpc : q ∈ cornerPositionsList ↔ tau (invMove m) q ∈ cornerPositionsList :=
      corner_mem_tau (invMove m) hm' q
    by_cases h2 : tau (invMove m) q = q
    · rw [if_neg (fun hx => hx.2 h2.symm), if_neg (fun hx => hx.2 h2.symm),
        if_neg (fun hx => hx.2 h2), if_neg (fun hx => hx.2 h2)]
    · by_cases h1e : q ∈ edgePositionsList
      · rw [if_pos ⟨hpe.mp h1e, fun hx => h2 hx.symm⟩, if_pos ⟨h1e, h2⟩]
        have hrt := (edgeVis_cases m hm q h1e (by rw [hf5]; exact h2)
          (st.vis q) ((hE q h1e).2)).2
        rw [hf5] at hrt
        exact hrt
      · by_cases h1c : q ∈ cornerPositionsList
        · have hue : ¬ tau (invMove m) q ∈ edgePositionsList :=
            fun hx => edge_not_corner _ hx (hpc.mp h1c)
          rw [if_neg (fun hx => hue hx.1), if_pos ⟨hpc.mp h1c, fun hx => h2 hx.symm⟩,
            if_neg (fun hx => h1e hx.1), if_pos ⟨h1c, h2⟩]
          have hrt := (cornerVis_cases m hm q h1c (by rw [hf5]; exact h2)
            (st.vis q) (hC q h1c)).2
          rw [hf5] at hrt
          exact hrt
        · rw [if_neg (fun hx => h1e (hpe.mpr hx.1)), if_neg (fun hx => h1c (hpc.mpr hx.1)),
            if_neg (fun hx => h1e hx.1), if_neg (fun hx => h1c hx.1)]

/-- The invariant holds after any move sequence from an invariant state. -/
theorem stateInv_applyMoveList (ms : List Move) (st : CubeState)
    (h : StateInv st) : StateInv (applyMoveList ms st) := by
  induction ms generalizing st with
  | nil => exact h
  | cons m T ih => exact ih _ (stateInv_step m st h)

/-- Finite check behind claim C2: on every displaced corner slot with a
valid label, a quarter turn keeps the reference character and overwrites
the other two positions with destination-solved-label characters, each of
a different axis than the character it replaces and than the reference
axis; a half turn case-inverts exactly the two non-reference positions. -/
theorem cornerVisNew_spec :
    ∀ m ∈ allMoves, ∀ s ∈ cornerPositionsList, ¬ mov m s = s →
      ∀ L ∈ validCorner s,
        (isQuarterTok m = true →
          cornerVisNew m L (mov m s) ∈ validCorner (mov m s) ∧
          (cornerVisNew m L (mov m s)).getD (ciOf m L) ' ' = L.getD (ciOf m L) ' ' ∧
          ∀ i ∈ (List.range 3).filter (fun i => ¬ i = ciOf m L),
            (cornerVisNew m L (mov m s)).getD i ' ' ∈ initVisAt (mov m s) ∧
            ¬ ((cornerVisNew m L (mov m s)).getD i ' ').toLower
                = (L.getD i ' ').toLower ∧
            ¬ ((cornerVisNew m L (mov m s)).getD i ' ').toLower = cornerRefChar m) ∧
        (¬ isQuarterTok m = true →
          ∀ i ∈ List.range 3,
            (cornerVisNew m L (mov m s)).getD i ' '
              = (if i = ciOf m L then L.getD i ' ' else swapCase (L.getD i ' '))) := by
  decide

/-! ### Claim theorems -/

/-- C1: for every move and every Edge slot `s` the move displaces
(`movement[move][s] ≠ s`), the resolver flips the slot's Good/Bad flag
exactly when the edge-distance from the occupant's solved home to `s`
equals the edge-distance from that home to `movement[move][s]`; in every
other case (distance differs via the `if`, slot not displaced, or slot
not an edge slot) the flag is unchanged.  The update reads the pre-move
occupant (`st.ids`) and pre-move slot, and holds for every distance
table `ed` and movement table `mvt`. -/
theorem c1_edge_flip_rule (ed : Pos → Pos → Nat) (mvt : Move → Pos → Pos)
    (m : Move) (st : CubeState) (s : Pos) :
    (s ∈ edgePositionsList → ¬ mvt m s = s →
      (updateSolverTbl ed mvt m st).solv s =
        (if ed (initialPosOf (st.ids s)) s = ed (initialPosOf (st.ids s)) (mvt m s)
         then flipGB (st.solv s) else st.solv s)) ∧
    (mvt m s = s → (updateSolverTbl ed mvt m st).solv s = st.solv s) ∧
    (¬ s ∈ edgePositionsList → (updateSolverTbl ed mvt m st).solv s = st.solv s) := by
  refine ⟨fun hs hd => ?_, fun hfix => ?_, fun hns => ?_⟩
  · rw [updateSolverTbl_solv]
    by_cases hc : ed (initialPosOf (st.ids s)) s
        = ed (initialPosOf (st.ids s)) (mvt m s)
    · rw [if_pos ⟨hs, hd, hc⟩, if_pos hc]
    · rw [if_neg (fun hx => hc hx.2.2), if_neg hc]
  · rw [updateSolverTbl_solv, if_neg (fun hx => hx.2.1 hfix)]
  · rw [updateSolverTbl_solv, if_neg (fun hx => hns hx.1)]

/-- Witness for C1: the front-top edge slot is displaced by `F` from the
solved state; the move strictly shortens nothing (distance goes 0 → 1),
so the flag stays `'g'`. -/
theorem c1_witness :
    (updateSolverTbl edgeDistance mov Move.F initialState).solv (0, 0, 1) = 'g' := by
  have h := (c1_edge_flip_rule edgeDistance mov Move.F initialState (0, 0, 1)).1
    (by decide) (by decide)
  rw [h]
  decide

/-- C2: for every displaced Corner slot holding a valid label, a quarter
turn keeps the reference character (the one naming the move's rotation
axis, matched case-insensitively) and replaces the two non-reference
characters with values taken from the solved-state label of the
destination slot `movement[move][s]` (the result is an arrangement of
that label), matched to preserve handedness: each replacement names a
different axis than both the character it replaces and the reference
axis.  A half-turn move instead case-inverts exactly the two
non-reference characters.  Slots not displaced keep their string. -/
theorem c2_corner_rule (m : Move) (st : CubeState) (s : Pos)
    (hs : s ∈ cornerPositionsList) (hL : st.vis s ∈ validCorner s) :
    (¬ mov m s = s →
      (isQuarterTok m = true →
        (updateVisualizer m st).vis s ∈ validCorner (mov m s) ∧
        ((updateVisualizer m st).vis s).getD (ciOf m (st.vis s)) ' '
            = (st.vis s).getD (ciOf m (st.vis s)) ' ' ∧
        ∀ i ∈ (List.range 3).filter (fun i => ¬ i = ciOf m (st.vis s)),
          ((updateVisualizer m st).vis s).getD i ' ' ∈ initVisAt (mov m s) ∧
          ¬ (((updateVisualizer m st).vis s).getD i ' ').toLower
              = ((st.vis s).getD i ' ').toLower ∧
          ¬ (((updateVisualizer m st).vis s).getD i ' ').toLower = cornerRefChar m) ∧
      (¬ isQuarterTok m = true →
        ∀ i ∈ List.range 3,
          ((updateVisualizer m st).vis s).getD i ' '
            = (if i = ciOf m (st.vis s) then (st.vis s).getD i ' '
               else swapCase ((st.vis s).getD i ' ')))) ∧
    (mov m s = s → (updateVisualizer m st).vis s = st.vis s) := by
  have hse : ¬ s ∈ edgePositionsList := fun hx => edge_not_corner s hx hs
  constructor
  · intro hd
    have hval : (updateVisualizer m st).vis s = cornerVisNew m (st.vis s) (mov m s) := by
      rw [updateVisualizer_vis, if_neg (fun hx => hse hx.1), if_pos ⟨hs, hd⟩]
    rw [hval]
    exact cornerVisNew_spec m (mem_allMoves m) s hs hd (st.vis s) hL
  · intro hfix
    rw [updateVisualizer_vis, if_neg (fun hx => hx.2 hfix), if_neg (fun hx => hx.2 hfix)]

/-- Witness for C2: the front-top-left corner slot under `F` from the
solved state receives an arrangement of the destination slot's solved
label. -/
theorem c2_witness :
    (updateVisualizer Move.F initialState).vis (0, 0, 0)
      ∈ validCorner (mov Move.F (0, 0, 0)) := by
  have h := ((c2_corner_rule Move.F initialState (0, 0, 0)
    (by decide) (by decide)).1 (by decide)).1 (by decide)
  exact h.1

/-- Counterexample to C3: after the two-move prefix `F R` from the solved
state, exactly one edge slot is flagged Bad — the count is odd, so the
edge-flip parity invariant fails at this prefix. -/
theorem c3_counterexample :
    bCount (applyMoveList [Move.F, Move.R] initialState) = 1 := by
  decide

/-- C3 amended: the Bad-edge count is 0 (even) after every single-move
prefix from solved, but it is not even after every prefix of every
sequence: the prefix `F R` leaves exactly one Bad edge. -/
theorem c3_amended_parity :
    (∀ m : Move, bCount (applyMoveList [m] initialState) = 0) ∧
    bCount (applyMoveList [Move.F, Move.R] initialState) = 1 := by
  constructor
  · intro m
    cases m <;> decide
  · decide

/-- C4: for every move sequence and every move token, applying the move
and then its designated inverse after the sequence returns the position
grid and every orientation label (solver flags and visualizer strings)
to exactly the state reached by the sequence alone — the round trip is
the identity on every reachable state. -/
theorem c4_move_inverse_roundtrip (ms : List Move) (m : Move) :
    applyMoveList (ms ++ [m, invMove m]) initialState
      = applyMoveList ms initialState := by
  have happ : applyMoveList (ms ++ [m, invMove m]) initialState
      = stepMove (invMove m) (stepMove m (applyMoveList ms initialState)) := by
    unfold applyMoveList
    rw [List.foldl_append]
    rfl
  rw [happ, step_roundtrip m _ (stateInv_applyMoveList ms initialState stateInv_initial)]

theorem exceptMap_eq_error {α β γ : Type} (f : α → β) (x : Except γ α) (e : γ) :
    x.map f = .error e ↔ x = .error e := by
  cases x <;> simp [Except.map]

/-- Characterization of tokenizer failure: if the loop started at index
`i` fails with `invalid j`, then `j` lies inside the string, no
one-character (nor, where it fits, two-character) token matches at `j`,
and a greedy token chain covers exactly the characters before `j`. -/
theorem tokLoop_invalid (n : Nat) :
    ∀ (cs : List Char) (i j : Nat), cs.length ≤ n →
      tokLoop cs i = .error (.invalid j) →
      i ≤ j ∧ j - i < cs.length ∧
      isKey (String.mk ((cs.drop (j - i)).take 1)) = false ∧
      (j - i + 2 ≤ cs.length → isKey (String.mk ((cs.drop (j - i)).take 2)) = false) ∧
      ∃ ts : List String,
        isGreedyTokenization ts cs = true ∧
        (ts.map String.toList).flatten = cs.take (j - i) ∧
        ∀ t ∈ ts, isKey t = true := by
  induction n with
  | zero =>
    intro cs i j hlen htok
    have hnil : cs = [] := List.eq_nil_of_length_eq_zero (Nat.le_zero.mp hlen)
    subst hnil
    simp [tokLoop] at htok
  | succ n ih =>
    intro cs i j hlen htok
    cases cs with
    | nil => simp [tokLoop] at htok
    | cons c1 rest1 =>
      cases rest1 with
      | nil =>
        by_cases h1 : isKey (String.mk [c1]) = true
        · simp [tokLoop, h1] at htok
        · simp [tokLoop, h1] at htok
          obtain rfl : i = j := htok
          refine ⟨Nat.le_refl i, by simp, ?_, fun hle => ?_, [], ?_, by simp, by simp⟩
          · simpa using (Bool.eq_false_iff.mpr h1)
          · simp at hle
          · simp [isGreedyTokenization]
      | cons c2 rest =>
        by_cases h2 : isKey (String.mk [c1, c2]) = true
        · cases rest with
          | nil => simp [tokLoop, h2] at htok
          | cons r rs =>
            have htok' : tokLoop (r :: rs) (i + 2) = .error (.invalid j) := by
              simp only [tokLoop, if_pos h2] at htok
              exact (exceptMap_eq_error _ _ _).mp htok
            have hlen' : (r :: rs).length ≤ n := by
              simp at hlen ⊢
              omega
            obtain ⟨hij, hlt, hk1, hk2, ts, hg, hjoin, hkeys⟩ :=
              ih (r :: rs) (i + 2) j hlen' htok'
            have hsplit : j - i = (j - (i + 2)) + 2 := by omega
            have hdrop : (c1 :: c2 :: r :: rs).drop (j - i) = (r :: rs).drop (j - (i + 2)) := by
              rw [hsplit]
              rfl
            refine ⟨by omega, by simp at hlt ⊢; omega, ?_, fun hle => ?_,
              String.mk [c1, c2] :: ts, ?_, ?_, ?_⟩
            · rw [hdrop]
              exact hk1
            · rw [hdrop]
              apply hk2
              simp at hle ⊢
              omega
            · simp [isGreedyTokenization, h2]
              exact hg
            · rw [hsplit]
              simpa using hjoin
            · intro t ht
              rcases List.mem_cons.mp ht with h | h
              · rw [h]; exact h2
              · exact hkeys t h
        · by_cases h1 : isKey (String.mk [c1]) = true
          · have htok' : tokLoop (c2 :: rest) (i + 1) = .error (.invalid j) := by
              simp only [tokLoop, if_neg h2, if_pos h1] at htok
              exact (exceptMap_eq_error _ _ _).mp htok
            have hlen' : (c2 :: rest).length ≤ n := by
              simp at hlen ⊢
              omega
            obtain ⟨hij, hlt, hk1, hk2, ts, hg, hjoin, hkeys⟩ :=
              ih (c2 :: rest) (i + 1) j hlen' htok'
            have hsplit : j - i = (j - (i + 1)) + 1 := by omega
            have hdrop : (c1 :: c2 :: rest).drop (j - i) = (c2 :: rest).drop (j - (i + 1)) := by
              rw [hsplit]
              rfl
            refine ⟨by omega, by simp at hlt ⊢; omega, ?_, fun hle => ?_,
              String.mk [c1] :: ts, ?_, ?_, ?_⟩
            · rw [hdrop]
              exact hk1
            · rw [hdrop]
              apply hk2
              simp at hle ⊢
              omega
            · simp [isGreedyTokenization, h2, h1]
              exact hg
            · rw [hsplit]
              simpa using hjoin
            · intro t ht
              rcases List.mem_cons.mp ht with h | h
              · rw [h]; exact h1
              · exact hkeys t h
          · simp [tokLoop, h2, h1] at htok
            obtain rfl : i = j := htok
            refine ⟨Nat.le_refl i, by simp, ?_, fun _ => ?_, [], ?_, by simp, by simp⟩
            · simpa using (Bool.eq_false_iff.mpr h1)
            · simpa using (Bool.eq_false_iff.mpr h2)
            · simp [isGreedyTokenization]

/-- C5: `apply_moves` tokenizes greedily, trying a two-character token
before a one-character token at each position (the `isGreedyTokenization`
chain), and whenever no valid token matches at some reached position it
fails with the invalid-move error naming the exact character index `j` of
the first position where matching failed: no one-character token (nor,
where two characters remain, a two-character token) matches at `j`, and a
greedy chain of valid tokens covers exactly the characters before `j`. -/
theorem c5_tokenizer_greedy_failure (s : String) (j : Nat)
    (h : tokenizeHTM s = .error (.invalid j)) :
    j < s.toList.length ∧
    isKey (String.mk ((s.toList.drop j).take 1)) = false ∧
    (j + 2 ≤ s.toList.length → isKey (String.mk ((s.toList.drop j).take 2)) = false) ∧
    ∃ ts : List String,
      isGreedyTokenization ts s.toList = true ∧
      (ts.map String.toList).flatten = s.toList.take j ∧
      ∀ t ∈ ts, isKey t = true := by
  obtain ⟨h0, hlt, hk1, hk2, hts⟩ :=
    tokLoop_invalid s.toList.length s.toList 0 j (Nat.le_refl _) h
  simp only [Nat.sub_zero] at hlt hk1 hk2 hts
  exact ⟨hlt, hk1, hk2, hts⟩

/-- Witness for C5 at the concrete string `"FU'Q2"`: tokenization fails
at index 3 (after the greedy tokens `F` and `U'`), where neither `"Q2"`
nor `"Q"` is a valid token. -/
theorem c5_witness :
    3 < "FU'Q2".toList.length ∧
    isKey (String.mk (("FU'Q2".toList.drop 3).take 1)) = false ∧
    (3 + 2 ≤ "FU'Q2".toList.length →
      isKey (String.mk (("FU'Q2".toList.drop 3).take 2)) = false) ∧
    ∃ ts : List String,
      isGreedyTokenization ts "FU'Q2".toList = true ∧
      (ts.map String.toList).flatten = "FU'Q2".toList.take 3 ∧
      ∀ t ∈ ts, isKey t = true :=
  c5_tokenizer_greedy_failure "FU'Q2" 3 (by rfl)

/-- Counterexample to C6: on the input `"FQ"` the tokenizer fails at
index 1, and `apply_moves` of `src/src` raises with the state still the
initial one — the valid earlier token `F` has NOT been applied (applying
`F` would move piece 6 into slot `(0,0,0)`), contradicting the claim
that earlier tokens of the call remain applied. -/
theorem c6_counterexample :
    applyMovesHTM initialTracker (.str "FQ")
        = (initialTracker, some (.tokErr (.invalid 1))) ∧
    (stepMove Move.F initialState).ids (0, 0, 0) = 6 ∧
    initialState.ids (0, 0, 0) = 0 := by
  refine ⟨rfl, by decide, by decide⟩

/-- C6 amended: in `src/src/cube_simulator_full.py` the whole string is
tokenized before any move is applied, so when an invalid token is
encountered NO tokens from the call have been applied — positions,
orientations and history are all unchanged — and the raised error
reports the index of the first bad token. -/
theorem c6_amended_no_partial_application (tr : Tracker) (s : String)
    (e : TokErr) (h : tokenizeHTM s = .error e) :
    applyMovesHTM tr (.str s) = (tr, some (.tokErr e)) := by
  simp only [applyMovesHTM]
  rw [h]

/-- Witness for C6 at `"U'X"`: tokens `U'` then failure at index 2. -/
theorem c6_witness :
    applyMovesHTM initialTracker (.str "U'X")
      = (initialTracker, some (.tokErr (.invalid 2))) :=
  c6_amended_no_partial_application initialTracker "U'X" (.invalid 2) (by rfl)

/-- Counterexample to C7: with every table file missing (every read
fails), `_load_tables_from_json` returns normally with all three entries
`None` — initialization completes instead of failing with a fatal
`MissingLookupTable` error. -/
theorem c7_counterexample :
    loadTablesFromJson (fun _ => none) htmTableFilenames
      = { edgeDistances := none, cornerDistances := none, movements := none } := rfl

/-- C7 amended: a failed table load is swallowed (the per-file exception
handler catches everything), leaving `None` for exactly that table while
the loader still returns; each of the three entries is independently
`None` or the payload of its own file, and no load failure is surfaced
to the caller at initialization. -/
theorem c7_amended_load_swallows_errors (read : String → Option TableContent) :
    (loadTablesFromJson read htmTableFilenames).cornerDistances
        = (read "..\\Precomputed_Lookup_Tables\\corner_primary_distance_table.json").map
            distPayload ∧
    (loadTablesFromJson read htmTableFilenames).edgeDistances
        = (read "..\\Precomputed_Lookup_Tables\\edge_primary_distance_table.json").map
            distPayload ∧
    (loadTablesFromJson read htmTableFilenames).movements
        = (read "..\\Precomputed_Lookup_Tables\\movement_table.json").map movePayload := by
  have hA : containsSub "..\\Precomputed_Lookup_Tables\\corner_primary_distance_table.json" "edge" = false := by decide
  have hB : containsSub "..\\Precomputed_Lookup_Tables\\corner_primary_distance_table.json" "corner" = true := by decide
  have hC : containsSub "..\\Precomputed_Lookup_Tables\\corner_primary_distance_table.json" "distance" = true := by decide
  have hD : containsSub "..\\Precomputed_Lookup_Tables\\edge_primary_distance_table.json" "edge" = true := by decide
  have hE : containsSub "..\\Precomputed_Lookup_Tables\\edge_primary_distance_table.json" "distance" = true := by decide
  have hF : containsSub "..\\Precomputed_Lookup_Tables\\movement_table.json" "edge" = false := by decide
  have hG : containsSub "..\\Precomputed_Lookup_Tables\\movement_table.json" "corner" = false := by decide
  have hH : containsSub "..\\Precomputed_Lookup_Tables\\movement_table.json" "movement" = true := by decide
  cases h0 : read "..\\Precomputed_Lookup_Tables\\corner_primary_distance_table.json" <;>
    cases h1 : read "..\\Precomputed_Lookup_Tables\\edge_primary_distance_table.json" <;>
      cases h2 : read "..\\Precomputed_Lookup_Tables\\movement_table.json" <;>
        simp [loadTablesFromJson, htmTableFilenames, h0, h1, h2,
          hA, hB, hC, hD, hE, hF, hG, hH]

/-- Counterexample to C8: the id classifier of `src/cube_model.py`
(cited by the claim) does not exclude the center ids, so it returns 15
"corner" ids instead of 8; and in `src/src` the array the classifier
reads marks corner slots with the single character `'0'`, not a
3-character axis string. -/
theorem c8_counterexample :
    cmCornerIds.length = 15 ∧
    (0, 0, 0) ∈ cornerPositionsList ∧ initSolv (0, 0, 0) = '0' := by
  decide

/-- C8 amended: every classifier variant marks a slot Edge iff its
orientation marker is the sentinel `'g'` and returns 12 edges; the
variants of `src/src` and `src/Simulators` skip the 7 center piece ids
and return exactly 8 corner ids, and the Simulators orientation array
indeed carries 3-character labels at the corner slots, while the
`src/src` solver array marks corners with `'0'`; but the id classifier
of `src/cube_model.py` does not exclude the centers, so its corner list
holds 15 ids (the 8 corners plus the 7 center ids). -/
theorem c8_amended_classifier :
    (edgeIdsList.length = 12 ∧ cornerIdsList.length = 8 ∧
     simEdgeIds.length = 12 ∧ simCornerIds.length = 8 ∧
     cmEdgeIds.length = 12 ∧ cmCornerIds.length = 15 ∧
     cmEdgePositions.length = 12 ∧ cmCornerPositions.length = 8) ∧
    (∀ q ∈ allPos,
      (q ∈ edgePositionsList ↔
        (¬ initIds q ∈ centerPieceIds ∧ initSolv q = 'g')) ∧
      (initIds q ∈ centerPieceIds →
        (¬ q ∈ edgePositionsList ∧ ¬ q ∈ cornerPositionsList))) ∧
    (∀ q ∈ simCornerPositions, (simOrient q).length = 3) ∧
    (∀ q ∈ simEdgePositions, simOrient q = "g") ∧
    (∀ q ∈ cornerPositionsList, initSolv q = '0') ∧
    (∀ pid ∈ centerPieceIds, pid ∈ cmCornerIds.map (fun i => i - 1)) := by
  refine ⟨by decide, by decide, by decide, by decide, by decide, by decide⟩

/-- Counterexample to C9: `apply_moves` of `src/src` rejects a list
argument outright with the not-a-string `ValueError`, applying nothing —
it does not accept an ordered sequence of move tokens. -/
theorem c9_counterexample :
    applyMovesHTM initialTracker (.list ["F"])
      = (initialTracker, some .notAString) := rfl

/-- C9 amended: the `src/src` engine accepts only a single continuous
string; any list argument raises the not-a-string `ValueError` with the
tracker unchanged (the list/str dual-input form exists only in the
`Simulators` variants). -/
theorem c9_amended_string_only (tr : Tracker) (l : List String) :
    applyMovesHTM tr (.list l) = (tr, some .notAString) := rfl

/-- C10: calling `apply_moves` with the empty string fails with the
out-of-range access of the tokenizer loop (`move_sequence[0]` on an
empty string), which is a different error from the invalid-move error
carrying an index, and the tracker — positions, orientations, history —
is returned unchanged; the total embedding returns this as a dedicated
`Except` error rather than a token list. -/
theorem c10_empty_string (tr : Tracker) :
    applyMovesHTM tr (.str "") = (tr, some (.tokErr .indexError)) ∧
    tokenizeHTM "" = .error .indexError ∧
    ∀ i : Nat, ¬ TokErr.indexError = TokErr.invalid i := by
  refine ⟨rfl, rfl, fun i h => ?_⟩
  exact TokErr.noConfusion h

/-- Witness for the amended C8 at the front-top edge slot. -/
theorem c8_witness :
    (0, 0, 1) ∈ edgePositionsList ↔
      (¬ initIds (0, 0, 1) ∈ centerPieceIds ∧ initSolv (0, 0, 1) = 'g') :=
  (c8_amended_classifier.2.1 (0, 0, 1) (by decide)).1

/-- Witness for C10 at the freshly constructed tracker. -/
theorem c10_witness :
    applyMovesHTM initialTracker (.str "")
      = (initialTracker, some (.tokErr .indexError)) :=
  (c10_empty_string initialTracker).1
